import Mathlib

/-!
Verification of the MemeExpensesApp personal-finance tracker.

The repository is a client-side React application; all state lives in four
in-memory collections (transactions, categories, budgets-by-month, events)
mirrored to browser local storage.  Monetary amounts (JS numbers) are
modelled as rationals; JS objects used as string-keyed records are modelled
as functions into Option.  Each definition below embeds one source function
and names the file it comes from.
-/

namespace MB

/-- The transaction type tag, source literal union of income and expense
(src/types.ts). -/
inductive TxType where
  | income
  | expense
deriving DecidableEq, Repr

/-- A financial transaction (src/types.ts).  The categoryId field is set for
expenses and undefined for income; eventId links the transaction to an
event when present.  Absent optional fields are modelled as none. -/
structure Transaction where
  id : String
  type : TxType
  amount : ℚ
  description : String
  date : String
  categoryId : Option String := none
  eventId : Option String := none
deriving DecidableEq, Repr

/-- A spending category (src/types.ts). -/
structure Category where
  id : String
  name : String
  color : String
  icon : String := ""
deriving DecidableEq, Repr

/-- A per-category budget entry for one month (src/types.ts). -/
structure Budget where
  categoryId : String
  amount : ℚ
deriving DecidableEq, Repr

/-- An event budget (src/types.ts). -/
structure Event where
  id : String
  name : String
  budget : ℚ
deriving DecidableEq, Repr

/-- The JS record mapping month keys (YYYY-MM) to budget entry lists
(Record of string to Budget array in src/App.tsx); a JS object is modelled
as a function returning none for absent keys. -/
def BudgetMap : Type := String → Option (List Budget)

/-! ## Dashboard month totals (src/components/Dashboard.tsx, lines 42-50) -/

/-- The result record of the Dashboard income/expense/balance computation. -/
structure MonthTotals where
  totalIncome : ℚ
  totalExpenses : ℚ
  balance : ℚ
deriving DecidableEq, Repr

/-- Embeds the memoized totals of src/components/Dashboard.tsx: income and
expenses are reduce-sums over the transactions filtered by type, and
balance is their difference. -/
def monthTotals (transactions : List Transaction) : MonthTotals :=
  let income := (transactions.filter (fun t => t.type == TxType.income)).foldl
    (fun sum t => sum + t.amount) 0
  let expenses := (transactions.filter (fun t => t.type == TxType.expense)).foldl
    (fun sum t => sum + t.amount) 0
  { totalIncome := income, totalExpenses := expenses, balance := income - expenses }

/-! ## Saving the current month budget (src/App.tsx, lines 253-259) -/

/-- Embeds setMonthBudget of src/App.tsx: the JS spread of prev with the
computed key currentMonthKey bound to newBudgets, i.e. a single-key
override of the record. -/
def setMonthBudget (budgets : BudgetMap) (currentMonthKey : String)
    (newBudgets : List Budget) : BudgetMap :=
  fun k => if k = currentMonthKey then some newBudgets else budgets k

/-! ## Deleting an event (src/App.tsx, lines 216-226) -/

/-- The slice of application state touched by deleteEvent. -/
structure EventsState where
  events : List Event
  transactions : List Transaction
deriving DecidableEq, Repr

/-- Embeds deleteEvent of src/App.tsx: after the user confirms, the event is
filtered out of the events collection and every transaction whose eventId
strictly equals the deleted id is filtered out of the transactions
collection.  The confirmed flag models the window.confirm result. -/
def deleteEvent (eventId : String) (confirmed : Bool) (s : EventsState) : EventsState :=
  if confirmed then
    { events := s.events.filter (fun e => e.id != eventId)
    , transactions := s.transactions.filter (fun t => t.eventId != some eventId) }
  else s

/-! ## Deleting a category (src/unnamed/part_005 lines 271-281, identical in
src/components/Settings.tsx lines 78-88) -/

/-- The slice of application state touched by the Settings category
handlers. -/
structure SettingsState where
  categories : List Category
  transactions : List Transaction
deriving DecidableEq, Repr

/-- Embeds handleDeleteCategory of the Settings component: a request for the
reserved id other is rejected with an alert and no mutation; otherwise,
after the user confirms, every transaction referencing the deleted id is
reassigned to other and the category is filtered out. -/
def handleDeleteCategory (categoryId : String) (confirmed : Bool)
    (s : SettingsState) : SettingsState :=
  if categoryId = "other" then s
  else if confirmed then
    { transactions := s.transactions.map
        (fun t => if t.categoryId == some categoryId
          then { t with categoryId := some "other" } else t)
    , categories := s.categories.filter (fun c => c.id != categoryId) }
  else s

/-! ## Event progress (src/components/Events.tsx lines 43-46, identical
formula in src/components/EventDetail.tsx lines 56-59) -/

/-- The values the event views derive for one event. -/
structure EventProgress where
  spent : ℚ
  remaining : ℚ
  percentage : ℚ
  isOverBudget : Bool
deriving DecidableEq, Repr

/-- Embeds getEventSpent of src/components/Events.tsx: the reduce-sum of the
amounts of the transactions whose eventId strictly equals the given id. -/
def getEventSpent (transactions : List Transaction) (eventId : String) : ℚ :=
  (transactions.filter (fun t => t.eventId == some eventId)).foldl
    (fun sum t => sum + t.amount) 0

/-- Embeds the per-event derived values of src/components/Events.tsx:
remaining is budget minus spent; percentage is the spent/budget ratio times
100 capped at 100 when the budget is positive and 0 otherwise; the
over-budget flag is spent greater than budget. -/
def eventProgress (event : Event) (transactions : List Transaction) : EventProgress :=
  let spent := getEventSpent transactions event.id
  { spent := spent
  , remaining := event.budget - spent
  , percentage := if event.budget > 0 then min (spent / event.budget * 100) 100 else 0
  , isOverBudget := spent > event.budget }

/-! ## Local storage adapter warnings (src/hooks/useLocalStorage.ts) -/

/-- What the storage medium holds for one key: no entry, an entry whose JSON
decoding throws, or an entry that decodes. -/
inductive StoredItem where
  | missing
  | corrupted
  | valid (raw : String)
deriving DecidableEq, Repr

/-- The user-visible alerts the adapter can raise while initializing a key. -/
inductive UserWarning where
  | storageUnavailable
  | corruptedData (key : String)
deriving DecidableEq, Repr

/-- The module-level mutable state of src/hooks/useLocalStorage.ts: the
memoized availability probe result (line 61) and the storage-warning
de-duplication flag (line 66). -/
structure ModuleState where
  isStorageAvailable : Option Bool
  hasShownStorageWarning : Bool
deriving DecidableEq, Repr

/-- The state at process start: no cached probe, no warning shown yet. -/
def initialModuleState : ModuleState :=
  { isStorageAvailable := none, hasShownStorageWarning := false }

/-- Embeds checkLocalStorageAvailability of src/hooks/useLocalStorage.ts:
returns the cached result when present, otherwise caches and returns the
outcome of the write/delete probe (the probe argument models whether that
round trip succeeds). -/
def checkLocalStorageAvailability (probe : Bool) (st : ModuleState) :
    Bool × ModuleState :=
  match st.isStorageAvailable with
  | some b => (b, st)
  | none => (probe, { st with isStorageAvailable := some probe })

/-- Embeds the useState initializer of useLocalStorage
(src/hooks/useLocalStorage.ts lines 107-126): when storage is unavailable
the storage warning is raised only if the de-duplication flag is unset;
when storage is available a corrupted stored value raises the corrupted
data alert, which has no de-duplication flag in the source. -/
def useLocalStorageInit (probe : Bool) (key : String) (item : StoredItem)
    (st : ModuleState) : ModuleState × List UserWarning :=
  let res := checkLocalStorageAvailability probe st
  let storageAvailable := res.1
  let st := res.2
  if storageAvailable = false then
    if st.hasShownStorageWarning = false then
      ({ st with hasShownStorageWarning := true }, [UserWarning.storageUnavailable])
    else (st, [])
  else
    match item with
    | StoredItem.corrupted => (st, [UserWarning.corruptedData key])
    | _ => (st, [])

/-- One process lifetime: every useLocalStorage key is initialized in turn
against the stored snapshot, threading the module state and collecting the
alerts in order. -/
def initKeys (probe : Bool) (keys : List (String × StoredItem))
    (st : ModuleState) : ModuleState × List UserWarning :=
  match keys with
  | [] => (st, [])
  | (k, item) :: rest =>
    let r1 := useLocalStorageInit probe k item st
    let r2 := initKeys probe rest r1.1
    (r2.1, r1.2 ++ r2.2)

/-- The alerts of a whole process run started from the fresh module state. -/
def runWarnings (probe : Bool) (keys : List (String × StoredItem)) : List UserWarning :=
  (initKeys probe keys initialModuleState).2

/-- Recognizes the storage-unavailable alert. -/
def isStorageW : UserWarning → Bool
  | UserWarning.storageUnavailable => true
  | _ => false

/-- Recognizes the corrupted-data alert. -/
def isCorruptedW : UserWarning → Bool
  | UserWarning.corruptedData _ => true
  | _ => false

/-- Recognizes a corrupted stored value. -/
def isCorruptedItem : StoredItem → Bool
  | StoredItem.corrupted => true
  | _ => false

/-! ## Add-transaction form submission (src/unnamed/part_006 lines 38-65) -/

/-- The form state of the add-transaction modal at submission time.  The
parsedAmount field is the result of parseFloat on the amount input, with
none modelling NaN. -/
structure TransactionForm where
  type : TxType
  parsedAmount : Option ℚ
  description : String
  date : String
  categoryId : String
  eventId : Option String := none
deriving DecidableEq, Repr

/-- Embeds handleSubmit of the add-transaction modal (src/unnamed/part_006):
a NaN or non-positive amount, an empty trimmed description, or an expense
with the empty category selection each abort with the corresponding alert
key and leave the transactions collection untouched; otherwise the new
record is appended through onAddTransaction/addTransaction of src/App.tsx
with a fresh id. -/
def handleSubmit (form : TransactionForm) (freshId : String)
    (transactions : List Transaction) : List Transaction × Option String :=
  match form.parsedAmount with
  | none => (transactions, some "errorAmount")
  | some parsedAmount =>
    if parsedAmount ≤ 0 then (transactions, some "errorAmount")
    else if form.description.trim = "" then (transactions, some "errorDescription")
    else if form.type = TxType.expense ∧ form.categoryId = "" then
      (transactions, some "errorCategory")
    else
      (transactions ++ [{ id := freshId
                        , type := form.type
                        , amount := parsedAmount
                        , description := form.description.trim
                        , date := form.date
                        , categoryId := if form.type = TxType.expense
                            then some form.categoryId else none
                        , eventId := form.eventId }], none)

/-! ## Bulk import (src/unnamed/part_005 lines 309-344) -/

/-- The four in-memory collections replaced wholesale by an import. -/
structure AppState where
  transactions : List Transaction
  categories : List Category
  budgets : BudgetMap
  events : List Event

/-- The shape of a parsed import file: each required top-level field is
some when present and truthy, none when missing (or falsy, which the
source treats the same way). -/
structure ImportData where
  transactions : Option (List Transaction)
  categories : Option (List Category)
  budgets : Option BudgetMap
  events : Option (List Event)

/-- Embeds the onload handler of handleFileChange (src/unnamed/part_005):
a file whose text does not parse as JSON (parsed is none) or whose parse
lacks one of the four required fields throws, which is caught and surfaced
as the invalid-file alert with no mutation; a valid file replaces all four
collections in one step after the user confirms. -/
def handleFileChange (parsed : Option ImportData) (confirmed : Bool)
    (s : AppState) : AppState × Option String :=
  match parsed with
  | none => (s, some "importErrorInvalidFile")
  | some d =>
    match d.transactions, d.categories, d.budgets, d.events with
    | some ts, some cs, some bs, some es =>
      if confirmed then
        ({ transactions := ts, categories := cs, budgets := bs, events := es }, none)
      else (s, none)
    | _, _, _, _ => (s, some "importErrorInvalidFile")

/-! ## Analytics spend-vs-budget (src/components/Analytics.tsx) -/

/-- One row of the Analytics spending data. -/
structure SpendingDatum where
  name : String
  spent : ℚ
  budget : ℚ
  color : String
deriving DecidableEq, Repr

/-- Embeds the expenses memo of src/components/Analytics.tsx line 37: only
expense transactions feed the spending data. -/
def analyticsExpenses (transactions : List Transaction) : List Transaction :=
  transactions.filter (fun t => t.type == TxType.expense)

/-- The budget amount the Analytics row takes for a category: the amount of
the first matching budget entry, defaulting to 0 (line 46). -/
def categoryBudget (budget : List Budget) (category : Category) : ℚ :=
  ((budget.find? (fun b => b.categoryId == category.id)).map Budget.amount).getD 0

/-- The spent amount the Analytics row takes for a category: the reduce-sum
of the expense amounts whose categoryId strictly equals the category id
(lines 47-49). -/
def categorySpent (expenses : List Transaction) (category : Category) : ℚ :=
  (expenses.filter (fun e => e.categoryId == some category.id)).foldl
    (fun sum e => sum + e.amount) 0

/-- The row built for one category (lines 51-56).  The source passes the
name through the translation lookup, which is out of scope; the raw name
stands in for the translated one. -/
def spendingDatum (budget : List Budget) (expenses : List Transaction)
    (category : Category) : SpendingDatum :=
  { name := category.name
  , spent := categorySpent expenses category
  , budget := categoryBudget budget category
  , color := category.color }

/-- The sort key of the spendingData comparator (lines 59-60): spent/budget
when the budget is positive, positive infinity when only spent is positive,
0 otherwise. -/
def spendingPercent (d : SpendingDatum) : WithTop ℚ :=
  if d.budget > 0 then ((d.spent / d.budget : ℚ) : WithTop ℚ)
  else if d.spent > 0 then ⊤ else 0

/-- Embeds the spendingData memo of src/components/Analytics.tsx lines
44-63: one row per category, rows with neither budget nor spending dropped,
then sorted by descending percentage of budget spent. -/
def spendingData (categories : List Category) (budget : List Budget)
    (expenses : List Transaction) : List SpendingDatum :=
  ((categories.map (spendingDatum budget expenses)).filter
    (fun d => decide (d.budget > 0) || decide (d.spent > 0))).mergeSort
    (fun a b => decide (spendingPercent b ≤ spendingPercent a))

/-- Embeds the over-budget test of src/components/Analytics.tsx line 83. -/
def isOverBudget (d : SpendingDatum) : Bool :=
  decide (d.budget > 0) && decide (d.spent > d.budget)

/-! ## Category management and the fallback invariant
(src/unnamed/part_005 lines 251-281, src/constants.ts) -/

/-- Embeds the regex replace of whitespace runs by a single underscore used
when generating a category id (the replace call in handleSaveCategory of
src/unnamed/part_005 line 257).  The prevWS flag records whether the
previous character belonged to a whitespace run. -/
def replaceWSRuns (prevWS : Bool) : List Char → List Char
  | [] => []
  | c :: rest =>
    if c.isWhitespace then
      (if prevWS then [] else ['_']) ++ replaceWSRuns true rest
    else c :: replaceWSRuns false rest

/-- The decimal digit characters of a natural number, most significant
first: a model of the JS number-to-string coercion applied to Date.now(). -/
def natDigits (n : Nat) : List Char :=
  if h : n < 10 then [Char.ofNat (48 + n)]
  else natDigits (n / 10) ++ [Char.ofNat (48 + n % 10)]
termination_by n
decreasing_by exact Nat.div_lt_self (by omega) (by omega)

/-- The id generated for a new category in handleSaveCategory
(src/unnamed/part_005 line 257): the lowercased name with whitespace runs
replaced by underscores, suffixed with the decimal rendering of the
Date.now() timestamp. -/
def newCategoryId (name : String) (now : Nat) : String :=
  String.mk (replaceWSRuns false name.toLower.data) ++ String.mk (natDigits now)

/-- Embeds the add branch of handleSaveCategory (src/unnamed/part_005 lines
255-263): a new category with a generated id is appended. -/
def handleSaveCategoryAdd (name color icon : String) (now : Nat)
    (s : SettingsState) : SettingsState :=
  { s with categories := s.categories ++
      [{ id := newCategoryId name now, name := name, color := color, icon := icon }] }

/-- Embeds the edit branch of handleSaveCategory (src/unnamed/part_005 lines
252-254): the category whose id matches the payload id is replaced by the
spread of the old record with the payload, every field of which the payload
supplies, so the matching record becomes the payload and in particular
keeps its id. -/
def handleSaveCategoryEdit (cat : Category) (s : SettingsState) : SettingsState :=
  { s with categories :=
      s.categories.map (fun c => if c.id == cat.id then cat else c) }

/-- Embeds addTransaction of src/App.tsx lines 186-188 on the Settings
state slice: the new record is appended. -/
def addTransactionOp (t : Transaction) (s : SettingsState) : SettingsState :=
  { s with transactions := s.transactions ++ [t] }

/-- Embeds deleteTransaction of src/App.tsx lines 194-196 on the Settings
state slice. -/
def deleteTransactionOp (transactionId : String) (s : SettingsState) : SettingsState :=
  { s with transactions := s.transactions.filter (fun t => t.id != transactionId) }

/-- Embeds DEFAULT_CATEGORIES of src/constants.ts (the source initializer
omits the icon field, modelled by the empty-string default). -/
def DEFAULT_CATEGORIES : List Category :=
  [ { id := "groceries", name := "category_groceries", color := "#10b981" }
  , { id := "transport", name := "category_transport", color := "#3b82f6" }
  , { id := "housing", name := "category_housing", color := "#6b7280" }
  , { id := "entertainment", name := "category_entertainment", color := "#8b5cf6" }
  , { id := "health", name := "category_health", color := "#ec4899" }
  , { id := "shopping", name := "category_shopping", color := "#f97316" }
  , { id := "food", name := "category_food", color := "#ef4444" }
  , { id := "utilities", name := "category_utilities", color := "#eab308" }
  , { id := "other", name := "category_other", color := "#a8a29e" } ]

/-- The states reachable from first use (categories seeded from
DEFAULT_CATEGORIES, no transactions) through the operations of the
application that touch the categories or transactions collections: the
category handlers, the transaction handlers, and the confirmed bulk import
of handleFileChange (src/unnamed/part_005 lines 326-330), whose
setCategories/setTransactions calls replace both collections wholesale with
the arrays of the imported file, validated only for truthiness, so the
imported arrays are arbitrary. -/
inductive ReachableSettings : SettingsState → Prop
  | init : ReachableSettings ⟨DEFAULT_CATEGORIES, []⟩
  | saveNew (name color icon : String) (now : Nat) {s : SettingsState} :
      ReachableSettings s → ReachableSettings (handleSaveCategoryAdd name color icon now s)
  | saveEdit (cat : Category) {s : SettingsState} :
      ReachableSettings s → ReachableSettings (handleSaveCategoryEdit cat s)
  | deleteCat (categoryId : String) (confirmed : Bool) {s : SettingsState} :
      ReachableSettings s → ReachableSettings (handleDeleteCategory categoryId confirmed s)
  | addTx (t : Transaction) {s : SettingsState} :
      ReachableSettings s → ReachableSettings (addTransactionOp t s)
  | deleteTx (transactionId : String) {s : SettingsState} :
      ReachableSettings s → ReachableSettings (deleteTransactionOp transactionId s)
  | importBackup (cs : List Category) (ts : List Transaction) {s : SettingsState} :
      ReachableSettings s → ReachableSettings ⟨cs, ts⟩

/-- The reachable states whose bulk imports were all of files carrying
exactly one fallback category: identical to ReachableSettings except that
the import step requires the imported categories array to hold exactly one
category with the reserved id. -/
inductive ReachableGoodImports : SettingsState → Prop
  | init : ReachableGoodImports ⟨DEFAULT_CATEGORIES, []⟩
  | saveNew (name color icon : String) (now : Nat) {s : SettingsState} :
      ReachableGoodImports s →
        ReachableGoodImports (handleSaveCategoryAdd name color icon now s)
  | saveEdit (cat : Category) {s : SettingsState} :
      ReachableGoodImports s → ReachableGoodImports (handleSaveCategoryEdit cat s)
  | deleteCat (categoryId : String) (confirmed : Bool) {s : SettingsState} :
      ReachableGoodImports s →
        ReachableGoodImports (handleDeleteCategory categoryId confirmed s)
  | addTx (t : Transaction) {s : SettingsState} :
      ReachableGoodImports s → ReachableGoodImports (addTransactionOp t s)
  | deleteTx (transactionId : String) {s : SettingsState} :
      ReachableGoodImports s → ReachableGoodImports (deleteTransactionOp transactionId s)
  | importBackup (cs : List Category) (ts : List Transaction)
      (h : cs.countP (fun c => c.id == "other") = 1) {s : SettingsState} :
      ReachableGoodImports s → ReachableGoodImports ⟨cs, ts⟩

/-- How many categories of the list carry the reserved fallback id. -/
def countOther (cats : List Category) : Nat :=
  cats.countP (fun c => c.id == "other")

/-! ## Concrete fixtures used by witnesses and counterexamples -/

/-- An event with a zero budget target. -/
def ev0 : Event := { id := "e1", name := "Party", budget := 0 }

/-- A transaction of amount 50 charged to event e1. -/
def tx50 : Transaction :=
  { id := "t1", type := TxType.expense, amount := 50, description := "cake"
  , date := "2025-10-01", categoryId := some "food", eventId := some "e1" }

/-- An event with a positive budget target. -/
def evA : Event := { id := "e1", name := "Trip", budget := 100 }

/-- A main (non-event) income transaction. -/
def txMain : Transaction :=
  { id := "t2", type := TxType.income, amount := 7, description := "pay"
  , date := "2025-10-02" }

/-- An events-state fixture holding evA and two transactions, one linked to
e1 and one not. -/
def sEv : EventsState := { events := [evA], transactions := [tx50, txMain] }

/-- An expense transaction in the groceries category. -/
def txGroc : Transaction :=
  { id := "t3", type := TxType.expense, amount := 12, description := "milk"
  , date := "2025-10-03", categoryId := some "groceries" }

/-- A settings-state fixture with the default categories. -/
def sSet : SettingsState :=
  { categories := DEFAULT_CATEGORIES, transactions := [txGroc, txMain] }

/-- The empty budgets record. -/
def emptyBudgets : BudgetMap := fun _ => none

/-! ## Shared lemmas -/

/-- A reduce-sum starting from an accumulator equals the accumulator plus
the sum of the mapped values. -/
theorem foldl_add_map_sum {α : Type} (f : α → ℚ) (l : List α) (a : ℚ) :
    l.foldl (fun sum t => sum + f t) a = a + (l.map f).sum := by
  induction l generalizing a with
  | nil => simp
  | cons x xs ih => simp only [List.foldl_cons, List.map_cons, List.sum_cons, ih]; ring

/-! ## C9: month totals -/

/-- C9: for every list of transactions the month-totals computation returns
income as the sum of the amounts of the income transactions, expenses as
the sum of the amounts of the expense transactions, and balance as income
minus expenses; on the empty list all three are zero. -/
theorem monthTotals_spec (transactions : List Transaction) :
    (monthTotals transactions).totalIncome =
      ((transactions.filter (fun t => t.type == TxType.income)).map Transaction.amount).sum ∧
    (monthTotals transactions).totalExpenses =
      ((transactions.filter (fun t => t.type == TxType.expense)).map Transaction.amount).sum ∧
    (monthTotals transactions).balance =
      (monthTotals transactions).totalIncome - (monthTotals transactions).totalExpenses ∧
    monthTotals [] = ⟨0, 0, 0⟩ := by
  refine ⟨?_, ?_, ?_, ?_⟩ <;>
    simp [monthTotals, foldl_add_map_sum]

/-! ## C10: saving the current month budget touches only its key -/

/-- C10: setMonthBudget stores the new entry list under the current month
key and leaves the entry stored under every other month key unchanged. -/
theorem setMonthBudget_frame (budgets : BudgetMap) (currentMonthKey : String)
    (newBudgets : List Budget) :
    setMonthBudget budgets currentMonthKey newBudgets currentMonthKey = some newBudgets ∧
    ∀ m, m ≠ currentMonthKey →
      setMonthBudget budgets currentMonthKey newBudgets m = budgets m := by
  refine ⟨by simp [setMonthBudget], fun m hm => ?_⟩
  simp [setMonthBudget, hm]

/-- Witness for C10 at a concrete record and month keys. -/
theorem setMonthBudget_frame_witness :
    setMonthBudget emptyBudgets "2025-10" [] "2025-10" = some [] ∧
    setMonthBudget emptyBudgets "2025-10" [] "2025-09" = emptyBudgets "2025-09" :=
  ⟨(setMonthBudget_frame emptyBudgets "2025-10" []).1,
   (setMonthBudget_frame emptyBudgets "2025-10" []).2 "2025-09" (by decide)⟩

/-! ## C6: event deletion cascades to the referencing transactions -/

/-- C6: after a confirmed deleteEvent, an event remains exactly when it was
present and is not the deleted one, a transaction remains exactly when it
was present and its eventId differs from the deleted id (transactions with
no eventId or another eventId survive), and the surviving transactions form
a sublist of the original ones, so each survivor is unchanged. -/
theorem deleteEvent_spec (eventId : String) (confirmed : Bool) (s : EventsState)
    (h : confirmed = true) :
    (∀ ev : Event, ev ∈ (deleteEvent eventId confirmed s).events ↔
        ev ∈ s.events ∧ ev.id ≠ eventId) ∧
    (∀ t : Transaction, t ∈ (deleteEvent eventId confirmed s).transactions ↔
        t ∈ s.transactions ∧ t.eventId ≠ some eventId) ∧
    (deleteEvent eventId confirmed s).transactions.Sublist s.transactions := by
  subst h
  refine ⟨fun ev => ?_, fun t => ?_, ?_⟩
  · simp [deleteEvent, List.mem_filter]
  · simp [deleteEvent, List.mem_filter]
  · simp only [deleteEvent, if_pos rfl]
    exact List.filter_sublist s.transactions

/-- Witness for C6: deleting event e1 from the fixture removes the linked
transaction, keeps the unlinked one, and removes the event. -/
theorem deleteEvent_spec_witness :
    txMain ∈ (deleteEvent "e1" true sEv).transactions ∧
    ¬ tx50 ∈ (deleteEvent "e1" true sEv).transactions ∧
    ¬ evA ∈ (deleteEvent "e1" true sEv).events := by
  have hspec := deleteEvent_spec "e1" true sEv rfl
  refine ⟨(hspec.2.1 txMain).mpr ⟨by simp [sEv], by simp [txMain]⟩, ?_, ?_⟩
  · intro hmem
    exact ((hspec.2.1 tx50).mp hmem).2 rfl
  · intro hmem
    exact ((hspec.1 evA).mp hmem).2 rfl

/-! ## C5: category deletion reassigns the referencing transactions -/

/-- C5: after a confirmed deletion of a non-fallback category id, the new
transaction list corresponds pointwise to the old one, with every
transaction that referenced the deleted id reassigned to the fallback id
other and every other transaction unchanged, and no category with the
deleted id remains. -/
theorem handleDeleteCategory_spec (categoryId : String) (confirmed : Bool)
    (s : SettingsState) (hne : categoryId ≠ "other") (hc : confirmed = true) :
    List.Forall₂
      (fun told tnew : Transaction =>
        (told.categoryId = some categoryId →
          tnew = { told with categoryId := some "other" }) ∧
        (told.categoryId ≠ some categoryId → tnew = told))
      s.transactions (handleDeleteCategory categoryId confirmed s).transactions ∧
    ∀ c : Category, c ∈ (handleDeleteCategory categoryId confirmed s).categories →
      c.id ≠ categoryId := by
  subst hc
  constructor
  · have hmap : (handleDeleteCategory categoryId true s).transactions =
        s.transactions.map (fun t => if t.categoryId == some categoryId
          then { t with categoryId := some "other" } else t) := by
      simp [handleDeleteCategory, hne]
    rw [hmap, List.forall₂_map_right_iff, List.forall₂_same]
    intro t _
    by_cases hcat : t.categoryId = some categoryId
    · simp [hcat]
    · simp [hcat]
  · intro c hc
    have : c ∈ s.categories.filter (fun c => c.id != categoryId) := by
      simpa [handleDeleteCategory, hne] using hc
    simpa using (List.mem_filter.mp this).2

/-- Witness for C5: deleting groceries from the fixture reassigns the
groceries expense to other and removes the groceries category. -/
theorem handleDeleteCategory_spec_witness :
    List.Forall₂
      (fun told tnew : Transaction =>
        (told.categoryId = some "groceries" →
          tnew = { told with categoryId := some "other" }) ∧
        (told.categoryId ≠ some "groceries" → tnew = told))
      sSet.transactions (handleDeleteCategory "groceries" true sSet).transactions ∧
    ∀ c : Category, c ∈ (handleDeleteCategory "groceries" true sSet).categories →
      c.id ≠ "groceries" :=
  handleDeleteCategory_spec "groceries" true sSet (by decide) rfl

/-! ## C1: event progress -/

/-- C1 as frozen is false on the code: with a zero budget and a positive
spent amount the source computes percentage 0, not 100.  On the fixture the
spent amount is 50, the budget is 0, the percentage is 0 and therefore not
the claimed 100 (the over-budget flag is true as claimed). -/
theorem eventProgress_percentage_counterexample :
    (eventProgress ev0 [tx50]).spent = 50 ∧ ev0.budget = 0 ∧
    (eventProgress ev0 [tx50]).isOverBudget = true ∧
    (eventProgress ev0 [tx50]).percentage = 0 ∧
    ¬ (eventProgress ev0 [tx50]).percentage = 100 := by
  refine ⟨?_, rfl, ?_, rfl, ?_⟩ <;>
    norm_num [eventProgress, getEventSpent, ev0, tx50]

/-- C1 amended: for transactions with the nonnegative amounts the data model
guarantees, the event progress returns spent as the sum of the amounts of
the transactions whose eventId matches the event, remaining as budget minus
spent, percentage as clamp of spent/budget*100 to 0..100 when the budget is
positive and 0 otherwise (also when spent is positive), and the over-budget
flag exactly when spent exceeds the budget. -/
theorem eventProgress_spec (event : Event) (transactions : List Transaction)
    (hpos : ∀ t ∈ transactions, 0 ≤ t.amount) :
    (eventProgress event transactions).spent =
      ((transactions.filter (fun t => t.eventId == some event.id)).map
        Transaction.amount).sum ∧
    (eventProgress event transactions).remaining =
      event.budget - (eventProgress event transactions).spent ∧
    (0 < event.budget →
      (eventProgress event transactions).percentage =
        max 0 (min ((eventProgress event transactions).spent / event.budget * 100) 100)) ∧
    (event.budget ≤ 0 → (eventProgress event transactions).percentage = 0) ∧
    ((eventProgress event transactions).isOverBudget = true ↔
      event.budget < (eventProgress event transactions).spent) := by
  have hspent : (eventProgress event transactions).spent =
      ((transactions.filter (fun t => t.eventId == some event.id)).map
        Transaction.amount).sum := by
    simp [eventProgress, getEventSpent, foldl_add_map_sum]
  have hnn : 0 ≤ (eventProgress event transactions).spent := by
    rw [hspent]
    refine List.sum_nonneg ?_
    intro x hx
    rcases List.mem_map.mp hx with ⟨t, ht, rfl⟩
    exact hpos t (List.mem_filter.mp ht).1
  refine ⟨hspent, rfl, ?_, ?_, ?_⟩
  · intro hb
    have hq : 0 ≤ min ((eventProgress event transactions).spent / event.budget * 100) 100 := by
      refine le_min ?_ (by norm_num)
      positivity
    simp only [eventProgress, getEventSpent] at hq ⊢
    rw [if_pos hb, max_eq_right]
    exact hq
  · intro hb
    simp [eventProgress, not_lt.mpr hb]
  · simp [eventProgress]

/-- Witness for C1 at the fixture: the hypothesis holds since the single
amount is 50, and the zero-budget branch gives percentage 0 while the
over-budget test compares spent with the budget. -/
theorem eventProgress_spec_witness :
    (eventProgress ev0 [tx50]).percentage = 0 ∧
    ((eventProgress ev0 [tx50]).isOverBudget = true ↔
      ev0.budget < (eventProgress ev0 [tx50]).spent) := by
  have h := eventProgress_spec ev0 [tx50] (by
    intro t ht
    rw [List.mem_singleton] at ht
    subst ht
    norm_num [tx50])
  exact ⟨h.2.2.2.1 (by norm_num [ev0]), h.2.2.2.2⟩

/-! ## C3: invalid add-transaction submissions are rejected -/

/-- C3: a submission whose parsed amount is NaN or non-positive, whose
trimmed description is empty, or which is an expense with the empty
category selection, leaves the transactions collection untouched and
surfaces an alert message. -/
theorem handleSubmit_rejects (form : TransactionForm) (freshId : String)
    (transactions : List Transaction)
    (h : form.parsedAmount = none ∨
      (∃ a, form.parsedAmount = some a ∧ a ≤ 0) ∨
      form.description.trim = "" ∨
      (form.type = TxType.expense ∧ form.categoryId = "")) :
    (handleSubmit form freshId transactions).1 = transactions ∧
    (handleSubmit form freshId transactions).2.isSome = true := by
  rcases h with h | ⟨a, ha, hle⟩ | h | h
  · simp [handleSubmit, h]
  · simp [handleSubmit, ha, hle]
  · cases hpa : form.parsedAmount with
    | none => simp [handleSubmit, hpa]
    | some a =>
      by_cases hle : a ≤ 0
      · simp [handleSubmit, hpa, hle]
      · simp [handleSubmit, hpa, hle, h]
  · cases hpa : form.parsedAmount with
    | none => simp [handleSubmit, hpa]
    | some a =>
      by_cases hle : a ≤ 0
      · simp [handleSubmit, hpa, hle]
      · by_cases hd : form.description.trim = ""
        · simp [handleSubmit, hpa, hle, hd]
        · simp [handleSubmit, hpa, hle, hd, h.1, h.2]

/-- An expense submission with a negative parsed amount. -/
def badForm : TransactionForm :=
  { type := TxType.expense, parsedAmount := some (-5), description := "x"
  , date := "2025-10-01", categoryId := "food" }

/-- Witness for C3: the negative-amount submission is rejected and adds
nothing. -/
theorem handleSubmit_rejects_witness :
    (handleSubmit badForm "id1" []).1 = ([] : List Transaction) ∧
    (handleSubmit badForm "id1" []).2.isSome = true :=
  handleSubmit_rejects badForm "id1" []
    (Or.inr (Or.inl ⟨-5, rfl, by norm_num⟩))

/-! ## C4: invalid imports are rejected before any mutation -/

/-- C4: a file that does not parse or whose parse lacks one of the four
required top-level fields leaves the state exactly as it was and surfaces
an error; moreover every run of the handler either leaves the state
untouched or replaces all four collections together with the ones from the
file, so no partial replacement is possible. -/
theorem handleFileChange_spec (parsed : Option ImportData) (confirmed : Bool)
    (s : AppState) :
    ((parsed = none ∨ ∃ d, parsed = some d ∧
        (d.transactions = none ∨ d.categories = none ∨
          d.budgets = none ∨ d.events = none)) →
      (handleFileChange parsed confirmed s).1 = s ∧
      (handleFileChange parsed confirmed s).2.isSome = true) ∧
    ((handleFileChange parsed confirmed s).1 = s ∨
      ∃ d ts cs bs es, parsed = some d ∧ d.transactions = some ts ∧
        d.categories = some cs ∧ d.budgets = some bs ∧ d.events = some es ∧
        (handleFileChange parsed confirmed s).1 =
          { transactions := ts, categories := cs, budgets := bs, events := es }) := by
  cases parsed with
  | none => exact ⟨fun _ => ⟨rfl, rfl⟩, Or.inl rfl⟩
  | some d =>
    cases htx : d.transactions with
    | none =>
      refine ⟨fun _ => ⟨?_, ?_⟩, Or.inl ?_⟩ <;> simp [handleFileChange, htx]
    | some ts =>
      cases hct : d.categories with
      | none =>
        refine ⟨fun _ => ⟨?_, ?_⟩, Or.inl ?_⟩ <;> simp [handleFileChange, htx, hct]
      | some cs =>
        cases hbg : d.budgets with
        | none =>
          refine ⟨fun _ => ⟨?_, ?_⟩, Or.inl ?_⟩ <;>
            simp [handleFileChange, htx, hct, hbg]
        | some bs =>
          cases hev : d.events with
          | none =>
            refine ⟨fun _ => ⟨?_, ?_⟩, Or.inl ?_⟩ <;>
              simp [handleFileChange, htx, hct, hbg, hev]
          | some es =>
            constructor
            · intro h
              exfalso
              rcases h with h | ⟨d', hd', hm⟩
              · exact Option.noConfusion h
              · obtain rfl : d = d' := Option.some.inj hd'
                rcases hm with hm | hm | hm | hm <;> simp_all
            · by_cases hcf : confirmed = true
              · refine Or.inr ⟨d, ts, cs, bs, es, rfl, htx, hct, hbg, hev, ?_⟩
                simp [handleFileChange, htx, hct, hbg, hev, hcf]
              · refine Or.inl ?_
                simp [handleFileChange, htx, hct, hbg, hev, hcf]

/-- A parsed import file whose events field is missing. -/
def d0 : ImportData :=
  { transactions := some [], categories := some [], budgets := some emptyBudgets
  , events := none }

/-- An application-state fixture for the import witness. -/
def s0 : AppState :=
  { transactions := [txMain], categories := DEFAULT_CATEGORIES
  , budgets := emptyBudgets, events := [evA] }

/-- Witness for C4: importing a file without the events field signals an
error and leaves the state identical. -/
theorem handleFileChange_spec_witness :
    (handleFileChange (some d0) true s0).1 = s0 ∧
    (handleFileChange (some d0) true s0).2.isSome = true :=
  (handleFileChange_spec (some d0) true s0).1
    (Or.inr ⟨d0, rfl, Or.inr (Or.inr (Or.inr rfl))⟩)

/-! ## C2: warning de-duplication -/

/-- Counting the storage-unavailable alerts of a run: exactly one is raised
when storage is unavailable, the flag is still unset, and at least one key
is initialized; none otherwise. -/
theorem initKeys_storage_count (probe : Bool) (keys : List (String × StoredItem)) :
    ∀ st : ModuleState,
    (initKeys probe keys st).2.countP isStorageW =
      if st.isStorageAvailable.getD probe = false ∧
          st.hasShownStorageWarning = false ∧ keys ≠ [] then 1 else 0 := by
  induction keys with
  | nil => intro st; simp [initKeys]
  | cons kv rest ih =>
    intro st
    obtain ⟨k, item⟩ := kv
    cases hav : st.isStorageAvailable with
    | none =>
      cases probe <;> cases hsw : st.hasShownStorageWarning <;>
        cases item <;>
          simp [initKeys, useLocalStorageInit, checkLocalStorageAvailability, hav,
            hsw, List.countP_append, List.countP_cons, ih, isStorageW]
    | some b =>
      cases b <;> cases hsw : st.hasShownStorageWarning <;>
        cases item <;>
          simp [initKeys, useLocalStorageInit, checkLocalStorageAvailability, hav,
            hsw, List.countP_append, List.countP_cons, ih, isStorageW]

/-- Counting the corrupted-data alerts of a run: when storage is available
one alert is raised for every key whose stored value is corrupted, i.e.
the alert has no per-process de-duplication. -/
theorem initKeys_corrupted_count (probe : Bool) (keys : List (String × StoredItem)) :
    ∀ st : ModuleState,
    (initKeys probe keys st).2.countP isCorruptedW =
      if st.isStorageAvailable.getD probe = true
      then keys.countP (fun kv => isCorruptedItem kv.2) else 0 := by
  induction keys with
  | nil => intro st; simp [initKeys]
  | cons kv rest ih =>
    intro st
    obtain ⟨k, item⟩ := kv
    cases hav : st.isStorageAvailable with
    | none =>
      cases probe <;> cases hsw : st.hasShownStorageWarning <;>
        cases item <;>
          simp [initKeys, useLocalStorageInit, checkLocalStorageAvailability, hav,
            hsw, List.countP_append, List.countP_cons, ih, isCorruptedW, isCorruptedItem]
    | some b =>
      cases b <;> cases hsw : st.hasShownStorageWarning <;>
        cases item <;>
          simp [initKeys, useLocalStorageInit, checkLocalStorageAvailability, hav,
            hsw, List.countP_append, List.countP_cons, ih, isCorruptedW, isCorruptedItem]

/-- C2 as frozen is false on the code: a process that initializes two keys
whose stored values are both corrupted raises the corrupted-data alert
twice, because unlike the storage-unavailable alert it has no
de-duplication flag. -/
theorem corruptedWarning_counterexample :
    1 < ((runWarnings true [("transactions", StoredItem.corrupted),
      ("categories", StoredItem.corrupted)]).countP isCorruptedW) := by
  decide

/-- C2 amended: in every process run the storage-unavailable alert fires at
most once, while the corrupted-data alert fires exactly once per key whose
stored value is corrupted (and only when storage is available), so it is
bounded per key, not per process. -/
theorem warnings_per_process (probe : Bool) (keys : List (String × StoredItem)) :
    (runWarnings probe keys).countP isStorageW ≤ 1 ∧
    (runWarnings probe keys).countP isCorruptedW =
      (if probe = true then keys.countP (fun kv => isCorruptedItem kv.2) else 0) := by
  constructor
  · rw [runWarnings, initKeys_storage_count]
    split <;> simp
  · rw [runWarnings, initKeys_corrupted_count]
    simp [initialModuleState]

/-! ## C8: per-category spend versus budget -/

/-- The spent amount of a category over the pre-filtered expenses equals the
sum over the original transactions filtered by matching category and
expense type at once. -/
theorem categorySpent_expenses (transactions : List Transaction) (c : Category) :
    categorySpent (analyticsExpenses transactions) c =
      ((transactions.filter (fun t =>
        t.categoryId == some c.id && t.type == TxType.expense)).map
        Transaction.amount).sum := by
  rw [categorySpent, analyticsExpenses, List.filter_filter, foldl_add_map_sum, zero_add]

/-- C8: a row is in the spending data exactly when it comes from a category
whose spent amount (sum of the matching expense amounts) or budgeted amount
(the matching budget entry or 0) is positive, carrying those two amounts;
rows with both amounts zero are dropped; and a row is over budget exactly
when spent exceeds budgeted and budgeted is positive, so a row with
positive spending against a zero budget is not over budget. -/
theorem spendingData_spec (categories : List Category) (budget : List Budget)
    (transactions : List Transaction) :
    (∀ d : SpendingDatum,
      d ∈ spendingData categories budget (analyticsExpenses transactions) ↔
        ∃ c ∈ categories,
          d.name = c.name ∧ d.color = c.color ∧
          d.spent = ((transactions.filter (fun t =>
              t.categoryId == some c.id && t.type == TxType.expense)).map
            Transaction.amount).sum ∧
          d.budget = ((budget.find? (fun b => b.categoryId == c.id)).map
            Budget.amount).getD 0 ∧
          (0 < d.budget ∨ 0 < d.spent)) ∧
    (∀ d : SpendingDatum, isOverBudget d = true ↔ d.budget < d.spent ∧ 0 < d.budget) ∧
    (∀ d : SpendingDatum, d.budget = 0 → isOverBudget d = false) := by
  refine ⟨fun d => ?_, fun d => ?_, fun d hd => ?_⟩
  · rw [spendingData, List.mem_mergeSort, List.mem_filter]
    constructor
    · rintro ⟨hmem, hpred⟩
      rcases List.mem_map.mp hmem with ⟨c, hc, rfl⟩
      refine ⟨c, hc, rfl, rfl, ?_, rfl, ?_⟩
      · simpa [spendingDatum] using categorySpent_expenses transactions c
      · simpa [decide_eq_true_iff] using hpred
    · rintro ⟨c, hc, hname, hcolor, hspent, hbudget, hpos⟩
      have hd : d = spendingDatum budget (analyticsExpenses transactions) c := by
        obtain ⟨dn, ds, db, dc⟩ := d
        simp only at hname hcolor hspent hbudget
        simp only [spendingDatum, SpendingDatum.mk.injEq]
        refine ⟨hname, ?_, ?_, hcolor⟩
        · rw [hspent, ← categorySpent_expenses]
        · rw [hbudget]; rfl
      subst hd
      exact ⟨List.mem_map.mpr ⟨c, hc, rfl⟩, by simpa [decide_eq_true_iff] using hpos⟩
  · simp [isOverBudget, Bool.and_eq_true, decide_eq_true_iff, and_comm]
  · simp [isOverBudget, hd]

/-- Witness for C8: a row with positive spending and zero budget is not
over budget. -/
theorem spendingData_spec_witness :
    isOverBudget { name := "g", spent := 5, budget := 0, color := "#fff" } = false :=
  (spendingData_spec [] [] []).2.2 { name := "g", spent := 5, budget := 0, color := "#fff" } rfl

/-! ## C7: exactly one fallback category in every reachable state -/

/-- The decimal digit list of a number ends in a digit character. -/
theorem natDigits_last (n : Nat) :
    ∃ l d, d < 10 ∧ natDigits n = l ++ [Char.ofNat (48 + d)] := by
  rw [natDigits]
  split
  · exact ⟨[], n, by assumption, by simp⟩
  · exact ⟨natDigits (n / 10), n % 10, Nat.mod_lt _ (by omega), rfl⟩

/-- A generated category id ends in a digit character, so it can never be
the reserved fallback id. -/
theorem newCategoryId_ne_other (name : String) (now : Nat) :
    newCategoryId name now ≠ "other" := by
  intro heq
  obtain ⟨l, d, hd, hdig⟩ := natDigits_last now
  have hdata : (newCategoryId name now).data =
      replaceWSRuns false name.toLower.data ++ natDigits now := by
    rw [newCategoryId, String.data_append]
  have h2 : replaceWSRuns false name.toLower.data ++
      (l ++ [Char.ofNat (48 + d)]) = "other".data := by
    rw [← hdig, ← hdata, heq]
  have hlast : ("other".data).getLast? = some (Char.ofNat (48 + d)) := by
    rw [← h2, ← List.append_assoc]
    exact List.getLast?_concat _
  have hr : Char.ofNat (48 + d) = 'r' := by
    have : ("other".data).getLast? = some 'r' := by decide
    rw [this] at hlast
    exact (Option.some.inj hlast).symm
  interval_cases d <;> exact absurd hr (by decide)

/-- Adding a category never changes how many categories carry the fallback
id, because the generated id is never the fallback id. -/
theorem countOther_add (name color icon : String) (now : Nat) (s : SettingsState) :
    countOther (handleSaveCategoryAdd name color icon now s).categories =
      countOther s.categories := by
  rw [handleSaveCategoryAdd]
  rw [countOther, countOther, List.countP_append, List.countP_singleton]
  have : ((newCategoryId name now : String) == "other") = false :=
    beq_eq_false_iff_ne.mpr (newCategoryId_ne_other name now)
  simp [this]

/-- Editing a category preserves every id, hence the fallback count. -/
theorem countOther_edit (cat : Category) (s : SettingsState) :
    countOther (handleSaveCategoryEdit cat s).categories = countOther s.categories := by
  rw [handleSaveCategoryEdit, countOther, countOther, List.countP_map]
  refine List.countP_congr ?_
  intro c _
  cases hid : c.id == cat.id with
  | false =>
    have hne : c.id ≠ cat.id := by simpa using hid
    simp [hne]
  | true =>
    have heq : c.id = cat.id := by simpa using hid
    simp [heq]

/-- Deleting a category preserves the fallback count: the fallback id is
rejected outright and any other id removes only categories that do not
carry the fallback id. -/
theorem countOther_delete (categoryId : String) (confirmed : Bool) (s : SettingsState) :
    countOther (handleDeleteCategory categoryId confirmed s).categories =
      countOther s.categories := by
  by_cases hother : categoryId = "other"
  · simp [handleDeleteCategory, hother]
  · cases confirmed with
    | false => simp [handleDeleteCategory, hother]
    | true =>
      have hcats : (handleDeleteCategory categoryId true s).categories =
          s.categories.filter (fun c => c.id != categoryId) := by
        simp [handleDeleteCategory, hother]
      rw [hcats, countOther, countOther, List.countP_filter]
      refine List.countP_congr ?_
      intro c _
      constructor
      · intro h
        exact (Bool.and_elim_left h)
      · intro h
        have hc : c.id = "other" := by simpa using h
        have : (c.id != categoryId) = true := by
          simp [hc]
          exact fun hcontr => hother hcontr.symm
        simp [h, this]

/-- C7 as frozen is false on the full program: the confirmed bulk import of
handleFileChange replaces the categories collection wholesale with the
imported file's array after only truthiness validation, so importing a file
whose categories array is empty reaches a state carrying no category with
the fallback id at all, refuting exactly-one in every reachable state. -/
theorem fallbackCategory_counterexample :
    ReachableSettings { categories := [], transactions := [] } ∧
    countOther ({ categories := [], transactions := [] } :
      SettingsState).categories ≠ 1 :=
  ⟨ReachableSettings.importBackup [] [] ReachableSettings.init, by decide⟩

/-- C7 amended: every state reachable from the default categories through
the in-app category and transaction operations, and through confirmed bulk
imports whose files each carry exactly one fallback category, has exactly
one category with the fallback id other (an import of any other file resets
the count to that of the imported array); a delete request for the fallback
id returns the state unchanged, mutating neither collection; and editing
preserves every category id, in particular the fallback id. -/
theorem fallbackCategory_invariant :
    (∀ s : SettingsState, ReachableGoodImports s → countOther s.categories = 1) ∧
    (∀ (s : SettingsState) (confirmed : Bool),
      handleDeleteCategory "other" confirmed s = s) ∧
    (∀ (s : SettingsState) (cat : Category),
      (handleSaveCategoryEdit cat s).categories.map Category.id =
        s.categories.map Category.id) := by
  refine ⟨?_, ?_, ?_⟩
  · intro s hs
    induction hs with
    | init => rfl
    | saveNew name color icon now _ ih => rw [countOther_add]; exact ih
    | saveEdit cat _ ih => rw [countOther_edit]; exact ih
    | deleteCat categoryId confirmed _ ih => rw [countOther_delete]; exact ih
    | addTx t _ ih => exact ih
    | deleteTx transactionId _ ih => exact ih
    | importBackup cs ts h _ _ => exact h
  · intro s confirmed
    simp [handleDeleteCategory]
  · intro s cat
    rw [handleSaveCategoryEdit, List.map_map]
    refine List.map_congr_left ?_
    intro c _
    cases hid : c.id == cat.id with
    | false =>
      have hne : c.id ≠ cat.id := by simpa using hid
      simp [hne]
    | true =>
      have heq : c.id = cat.id := by simpa using hid
      simp [heq]

/-- Witness for C7: the initial state is reachable with exactly one
fallback category, the state after importing a file that carries the
default categories again still has exactly one, and deleting the fallback
id is a no-op. -/
theorem fallbackCategory_invariant_witness :
    countOther ({ categories := DEFAULT_CATEGORIES, transactions := [] } :
      SettingsState).categories = 1 ∧
    countOther ({ categories := DEFAULT_CATEGORIES, transactions := [txMain] } :
      SettingsState).categories = 1 ∧
    handleDeleteCategory "other" true
        { categories := DEFAULT_CATEGORIES, transactions := [] } =
      { categories := DEFAULT_CATEGORIES, transactions := [] } :=
  ⟨fallbackCategory_invariant.1 _ ReachableGoodImports.init,
   fallbackCategory_invariant.1 _
     (ReachableGoodImports.importBackup DEFAULT_CATEGORIES [txMain] rfl
       ReachableGoodImports.init),
   fallbackCategory_invariant.2.1 _ true⟩

end MB
